import Mathlib

/-!
Verification of the Multilingual-Shopping-Assistant services.

Shallow embedding of `src/services/hindi_shopping_search.py`,
`src/services/product_comparison.py` and `src/services/link_analysis_models.py`.
Strings are modelled through their character lists; the regular expressions of
the source are small literal patterns over disjoint character classes, so each
one is embedded as a deterministic left-to-right scanner whose behaviour agrees
with the backtracking engine on these patterns (at every start position the
greedy parse succeeds exactly when the backtracking parse does, because each
sub-pattern consumes a character class the following sub-pattern rejects).
Python float values arising here are decimal numerals, embedded as exact
rationals.  Lowercasing is ASCII (the lexicons and patterns are ASCII).
-/

namespace Shop

/-- ASCII lowercase, mirroring Python str.lower on the ASCII text this program handles. -/
def lowerChar (c : Char) : Char :=
  if 'A' ≤ c ∧ c ≤ 'Z' then Char.ofNat (c.toNat + 32) else c

def lowerL (s : List Char) : List Char := s.map lowerChar

/-- Python str.lower (ASCII fragment). -/
def lower (s : String) : String := ⟨lowerL s.data⟩

/-- Python str.upper on one ASCII character. -/
def upperChar (c : Char) : Char :=
  if 'a' ≤ c ∧ c ≤ 'z' then Char.ofNat (c.toNat - 32) else c

def isDigitChar (c : Char) : Bool := '0' ≤ c && c ≤ '9'

def isAlphaChar (c : Char) : Bool := ('a' ≤ c && c ≤ 'z') || ('A' ≤ c && c ≤ 'Z')

/-- The regex class \w (ASCII fragment): letters, digits, underscore. -/
def isWordChar (c : Char) : Bool := isAlphaChar c || isDigitChar c || c == '_'

/-- The regex class \s and Python str.strip default (ASCII whitespace). -/
def isSpaceChar (c : Char) : Bool :=
  c == ' ' || c == '\t' || c == '\n' || c == '\x0d' || c == '\x0b' || c == '\x0c'

/-- Does the needle occur (case sensitively) at the head of the haystack? -/
def startsWithL : List Char → List Char → Bool
  | [], _ => true
  | _ :: _, [] => false
  | a :: as, b :: bs => a == b && startsWithL as bs

/-- Case-insensitive variant of startsWithL. -/
def startsWithCI : List Char → List Char → Bool
  | [], _ => true
  | _ :: _, [] => false
  | a :: as, b :: bs => lowerChar a == lowerChar b && startsWithCI as bs

/-- Python substring test: the needle occurs somewhere in the haystack. -/
def containsL (hay needle : List Char) : Bool :=
  match hay with
  | [] => needle.isEmpty
  | _ :: rest => startsWithL needle hay || containsL rest needle

/-- Python substring test on strings (needle in hay). -/
def containsS (hay needle : String) : Bool := containsL hay.data needle.data

/-- Scan start positions left to right, as re.search does, returning the first success. -/
def searchPat {α : Type} (p : List Char → Option α) : List Char → Option α
  | [] => p []
  | s@(_ :: rest) =>
    match p s with
    | some g => some g
    | none => searchPat p rest

/-- Greedy \d+ at the head: the maximal digit run and the rest. -/
def takeDigits (s : List Char) : List Char × List Char :=
  (s.takeWhile isDigitChar, s.dropWhile isDigitChar)

/-- Greedy (?:,\d+)* as a structural recursion on fuel; every step consumes at least two
characters while spending one unit of fuel, so fuel equal to the input length is never
exhausted and the base case for zero fuel is unreachable on the wrapper below. -/
def commaGroupsFuel : Nat → List Char → List Char × List Char
  | 0, s => ([], s)
  | Nat.succ n, s =>
    match s with
    | ',' :: rest =>
      match takeDigits rest with
      | ([], _) => ([], s)
      | (d :: ds, rest1) =>
        let (gs, rest2) := commaGroupsFuel n rest1
        (',' :: (d :: ds) ++ gs, rest2)
    | _ => ([], s)

/-- Greedy (?:,\d+)* at the head: matched text and rest. -/
def commaGroups (s : List Char) : List Char × List Char := commaGroupsFuel s.length s

/-- Greedy (?:\.\d{2})? at the head (exactly two decimals): matched text and rest. -/
def dec2 : List Char → List Char × List Char
  | '.' :: d1 :: d2 :: rest =>
    if isDigitChar d1 && isDigitChar d2 then (['.', d1, d2], rest) else ([], '.' :: d1 :: d2 :: rest)
  | s => ([], s)

/-- Greedy parse of \d+(?:,\d+)*(?:\.\d{2})? at the head: the captured numeral and the rest. -/
def moneyNum (s : List Char) : Option (List Char × List Char) :=
  match takeDigits s with
  | ([], _) => none
  | (d :: ds, rest) =>
    let (gs, rest1) := commaGroups rest
    let (dc, rest2) := dec2 rest1
    some ((d :: ds) ++ gs ++ dc, rest2)

/-- Pattern 1 of _extract_price: the capture of r'₹\s*(\d+(?:,\d+)*(?:\.\d{2})?)' at the head. -/
def tryRupeeSign : List Char → Option (List Char)
  | '₹' :: rest => (moneyNum (rest.dropWhile isSpaceChar)).map Prod.fst
  | _ => none

/-- Pattern 2 of _extract_price: the capture of r'Rs\.?\s*(...)' (IGNORECASE) at the head. -/
def tryRs (s : List Char) : Option (List Char) :=
  if startsWithCI ("rs".data) s then
    let r := s.drop 2
    let r := match r with
      | '.' :: rest => rest
      | _ => r
    (moneyNum (r.dropWhile isSpaceChar)).map Prod.fst
  else none

/-- Pattern 3 of _extract_price: the capture of r'INR\s*(...)' (IGNORECASE) at the head. -/
def tryINR (s : List Char) : Option (List Char) :=
  if startsWithCI ("inr".data) s then
    (moneyNum ((s.drop 3).dropWhile isSpaceChar)).map Prod.fst
  else none

/-- Pattern 4 of _extract_price: the capture of r'\$(...)' at the head. -/
def tryDollar : List Char → Option (List Char)
  | '$' :: rest => (moneyNum rest).map Prod.fst
  | _ => none

/-- Pattern 5 of _extract_price: the capture of r'(...)\s*(?:rupees?|rs)' (IGNORECASE) at the head. -/
def tryRupeesWord (s : List Char) : Option (List Char) :=
  match moneyNum s with
  | some (g, rest) =>
    let r := rest.dropWhile isSpaceChar
    if startsWithCI ("rupee".data) r || startsWithCI ("rs".data) r then some g else none
  | none => none

/-- The ordered pattern list of HindiShoppingSearch._extract_price: the first capture over
the whole content, trying each pattern with a full leftmost search before the next. -/
def priceGroup (content : List Char) : Option (List Char) :=
  match searchPat tryRupeeSign content with
  | some g => some g
  | none =>
    match searchPat tryRs content with
    | some g => some g
    | none =>
      match searchPat tryINR content with
      | some g => some g
      | none =>
        match searchPat tryDollar content with
        | some g => some g
        | none => searchPat tryRupeesWord content

/-- HindiShoppingSearch._extract_price: first matching pattern capture prefixed with ₹,
else the sentinel. -/
def extractPrice (content : String) : String :=
  match priceGroup content.data with
  | some g => "₹" ++ ⟨g⟩
  | none => "Price not available"

/-- Regex \b: a word boundary lies between two (optional, at the ends) characters when
exactly one of them is a word character. -/
def wbBetween (a b : Option Char) : Bool :=
  (match a with | none => false | some c => isWordChar c) !=
  (match b with | none => false | some c => isWordChar c)

/-- Does r'\b<key>\b' (IGNORECASE) match at the head of s, whose preceding character
in the full text is prev? -/
def matchesWBHere (key : List Char) (prev : Option Char) (s : List Char) : Bool :=
  !key.isEmpty && startsWithCI key s &&
  wbBetween prev s.head? &&
  wbBetween (s.get? (key.length - 1)) (s.get? key.length)

/-- re.sub(r'\b<key>\b', repl, s, flags=IGNORECASE) for a literal key: scan left to
right, replacing non-overlapping matches, resuming after each match; the replacement
text is not rescanned.  Structural on fuel; a step consumes at least one character of s,
so fuel equal to the length of s is never exhausted. -/
def subWBFuel (key repl : List Char) : Nat → Option Char → List Char → List Char
  | 0, _, s => s
  | Nat.succ n, prev, s =>
    match s with
    | [] => []
    | c :: rest =>
      if matchesWBHere key prev s then
        repl ++ subWBFuel key repl n (s.get? (key.length - 1)) (s.drop key.length)
      else
        c :: subWBFuel key repl n (some c) rest

/-- Word-boundary case-insensitive global substitution on strings. -/
def subWBStr (key repl s : String) : String :=
  ⟨subWBFuel key.data repl.data s.data.length none s.data⟩

/-- Python str.replace: case-sensitive replacement of all non-overlapping occurrences,
left to right (the callers only pass nonempty keys).  Structural on fuel as above. -/
def replaceFuel (key repl : List Char) : Nat → List Char → List Char
  | 0, s => s
  | Nat.succ n, s =>
    match s with
    | [] => []
    | c :: rest =>
      if !key.isEmpty && startsWithL key s then
        repl ++ replaceFuel key repl n (s.drop key.length)
      else
        c :: replaceFuel key repl n rest

def replaceStr (s key repl : String) : String :=
  ⟨replaceFuel key.data repl.data s.data.length s.data⟩

/-- Python str.strip(): remove leading and trailing whitespace. -/
def stripStr (s : String) : String :=
  ⟨((s.data.dropWhile isSpaceChar).reverse.dropWhile isSpaceChar).reverse⟩

/-- Case-sensitive whole-word match at the head of s (both \b boundaries). -/
def matchesWordHere (key : List Char) (prev : Option Char) (s : List Char) : Bool :=
  !key.isEmpty && startsWithL key s &&
  wbBetween prev s.head? &&
  wbBetween (s.get? (key.length - 1)) (s.get? key.length)

def containsWordAux (key : List Char) : Option Char → List Char → Bool
  | _, [] => false
  | prev, c :: rest => matchesWordHere key prev (c :: rest) || containsWordAux key (some c) rest

/-- The needle occurs in the haystack as a standalone word (case-sensitive, \b on both
sides). -/
def containsWord (hay needle : String) : Bool := containsWordAux needle.data none hay.data

/-- The hindi_english_mappings dict of HindiShoppingSearch.__init__, in Python dict
insertion order: a key listed several times keeps its first position (all duplicated
keys in the source carry equal values, so the collapsed value is the common one). -/
def hindiEnglishMappings : List (String × String) :=
  [("tamatar", "tomato"), ("pyaaz", "onion"), ("aloo", "potato"), ("gajar", "carrot"),
   ("baingan", "eggplant"), ("kheera", "cucumber"), ("palak", "spinach"),
   ("methi", "fenugreek"), ("kothimbir", "coriander"), ("pudina", "mint"),
   ("dhaniya", "coriander"), ("dhania", "coriander"), ("doodh", "milk"),
   ("paneer", "cottage cheese"), ("ghee", "clarified butter"), ("atta", "wheat flour"),
   ("chawal", "rice"), ("daal", "lentils"), ("chai", "tea"), ("coffee", "coffee"),
   ("mobile", "mobile phone"), ("laptop", "laptop"), ("computer", "computer"),
   ("headphone", "headphones"), ("charger", "mobile charger"), ("kapda", "clothes"),
   ("shirt", "shirt"), ("pant", "pants"), ("shoes", "shoes"), ("bag", "bag"),
   ("pyaz", "onion"), ("alu", "potato"), ("gajjar", "carrot"), ("brinjal", "eggplant"),
   ("khira", "cucumber"), ("kothmir", "coriander"), ("dudh", "milk"),
   ("chaval", "rice"), ("dal", "lentils")]

/-- The hindi_indicators list of detect_hindi_query, verbatim (duplicates included). -/
def hindiIndicators : List String :=
  ["kya", "kaise", "kahan", "kab", "kaun", "kya", "hai", "ho",
   "main", "aap", "tum", "hum", "wo", "ye", "us", "is", "un",
   "in", "ka", "ki", "ke", "kaa", "kii", "kee", "se", "me",
   "par", "pe", "ko", "ke", "ka", "ki", "kya", "kahan", "kab"]

/-- HindiShoppingSearch.detect_hindi_query: true as soon as any indicator, or any
mapping key, occurs as a substring of the lower-cased query. -/
def detectHindiQuery (query : String) : Bool :=
  let queryLower := lower query
  hindiIndicators.any (fun ind => containsS queryLower ind) ||
  hindiEnglishMappings.any (fun kv => containsS queryLower kv.1)

/-- The hindi_phrases dict of translate_hindi_to_english, in insertion order. -/
def hindiPhrases : List (String × String) :=
  [("kya chahiye", "what do you want"), ("kya hai", "what is"), ("kahan hai", "where is"),
   ("kitne ka", "how much"), ("kaise hai", "how is"), ("acha hai", "good"),
   ("bura hai", "bad"), ("mehenga", "expensive"), ("sasta", "cheap"),
   ("accha", "good"), ("bura", "bad")]

/-- HindiShoppingSearch.translate_hindi_to_english: word-boundary case-insensitive
substitution of every mapping key in table order, then for each phrase whose key occurs
in the lower-cased original query a case-sensitive replace on the accumulated text, then
strip. -/
def translateHindiToEnglish (query : String) : String :=
  let queryLower := lower query
  let t1 := hindiEnglishMappings.foldl (fun acc kv => subWBStr kv.1 kv.2 acc) query
  let t2 := hindiPhrases.foldl
    (fun acc kv => if containsS queryLower kv.1 then replaceStr acc kv.1 kv.2 else acc) t1
  stripStr t2

def shoppingKeywords : List String :=
  ["buy", "purchase", "shop", "order", "online", "store", "price"]

/-- HindiShoppingSearch.enhance_search_query: append fixed shopping context when no
keyword of the set occurs as a substring of the lower-cased query. -/
def enhanceSearchQuery (query : String) : String :=
  let queryLower := lower query
  if shoppingKeywords.any (fun k => containsS queryLower k) then query
  else query ++ " buy online price"

/-- The spec notion normalize: lexicon translation followed by shopping-context
enhancement, the composition applied to a query by search_products. -/
def normalizeQuery (query : String) : String :=
  enhanceSearchQuery (translateHindiToEnglish query)

/-- A search-result dict with string values, as returned by the Serper organic list. -/
abbrev RDict := List (String × String)

/-- Python dict .get(key, default) (first matching key; dict keys are unique). -/
def dGet : RDict → String → String → String
  | [], _, dflt => dflt
  | (k, v) :: rest, key, dflt => if k = key then v else dGet rest key dflt

/-- The shopping_sites list of _calculate_relevance_score. -/
def shoppingSites : List String :=
  ["amazon", "flipkart", "myntra", "snapdeal", "paytmmall", "bigbasket", "zepto", "blinkit"]

/-- HindiShoppingSearch._calculate_relevance_score: +5 when the lower-cased query is a
substring of the lower-cased title value, +2 when it is a substring of the value under
key content (absent in Serper organic results, so the default empty string), +3 when a
shopping site name occurs in the value under key source (likewise absent), capped at 10.
Scores are decimal Python floats, embedded as rationals. -/
def calculateRelevanceScore (result : RDict) (query : String) : ℚ :=
  let queryLower := lower query
  let titleLower := lower (dGet result ("title") (""))
  let contentLower := lower (dGet result ("content") (""))
  let sourceLower := lower (dGet result ("source") (""))
  let score : ℕ :=
    (if containsS titleLower queryLower then 5 else 0) +
    (if containsS contentLower queryLower then 2 else 0) +
    (if shoppingSites.any (fun site => containsS sourceLower site) then 3 else 0)
  min ((score : ℚ)) 10

/-- The relevance-score formula in the words of the spec (section 4.4): +5 for the
query in the title, +2 for the query in the snippet, +3 when the source domain matches
a shopping domain.  Stated only to be compared against calculateRelevanceScore, which
embeds the source. -/
def specRelevanceScore (result : RDict) (query : String) : ℚ :=
  let queryLower := lower query
  let titleLower := lower (dGet result ("title") (""))
  let snippetLower := lower (dGet result ("snippet") (""))
  let sourceLower := lower (dGet result ("source") (""))
  let score : ℕ :=
    (if containsS titleLower queryLower then 5 else 0) +
    (if containsS snippetLower queryLower then 2 else 0) +
    (if shoppingSites.any (fun site => containsS sourceLower site) then 3 else 0)
  min ((score : ℚ)) 10

/-- Scheme split of urllib.parse.urlparse: strip a leading <scheme>: when the scheme is
a letter followed by letters, digits, +, - or dots. -/
def isSchemeChar (c : Char) : Bool :=
  isAlphaChar c || isDigitChar c || c == '+' || c == '-' || c == '.'

def dropScheme (s : List Char) : List Char :=
  let pre := s.takeWhile isSchemeChar
  match pre, s.drop pre.length with
  | c :: _, ':' :: rest => if isAlphaChar c then rest else s
  | _, _ => s

/-- HindiShoppingSearch._extract_domain: the netloc of urlparse (the text between //
and the next /, ? or #; empty when the URL has no // part), with a leading www.
removed.  urlparse does not raise on strings, so the except branch is dead. -/
def extractDomain (url : String) : String :=
  let rest := dropScheme url.data
  let netloc :=
    match rest with
    | '/' :: '/' :: r => r.takeWhile (fun c => !(c == '/' || c == '?' || c == '#'))
    | _ => []
  if startsWithL ("www.".data) netloc then ⟨netloc.drop 4⟩ else ⟨netloc⟩

/-- One formatted result of _format_results / _get_demo_products. -/
structure FormattedResult where
  title : String
  description : String
  url : String
  source : String
  price : String
  score : ℚ
deriving DecidableEq

/-- Stable descending insertion by score: formatted_results.sort(key=score,
reverse=True); an earlier element stays before a later one of equal score. -/
def insertByScore (a : FormattedResult) : List FormattedResult → List FormattedResult
  | [] => [a]
  | b :: rest => if b.score ≤ a.score then a :: b :: rest else b :: insertByScore a rest

def sortByScoreDesc : List FormattedResult → List FormattedResult
  | [] => []
  | a :: rest => insertByScore a (sortByScoreDesc rest)

/-- HindiShoppingSearch._format_results: map each organic result into a formatted
result and sort by relevance score descending (stable). -/
def formatResults (results : List RDict) (originalQuery : String) : List FormattedResult :=
  sortByScoreDesc (results.map (fun result =>
    { title := dGet result ("title") ("Product")
      description := dGet result ("snippet") ("No description available")
      url := dGet result ("link") ("")
      source := extractDomain (dGet result ("link") (""))
      price := extractPrice (dGet result ("snippet") (""))
      score := calculateRelevanceScore result originalQuery }))

/-- Python str.title(): uppercase every cased character that follows a non-cased one,
lowercase the rest (ASCII fragment). -/
def titleAux : Bool → List Char → List Char
  | _, [] => []
  | prevAlpha, c :: rest =>
    (if isAlphaChar c then (if prevAlpha then lowerChar c else upperChar c) else c) ::
      titleAux (isAlphaChar c) rest

def titleCase (s : String) : String := ⟨titleAux false s.data⟩

/-- The fixed three-item demo list of _get_demo_products, before the [:limit] cut. -/
def demoProductsList (query : String) : List FormattedResult :=
  [{ title := "Demo " ++ titleCase query ++ " Product 1"
     description := "This is a demo product for " ++ query ++
       ". It's a great product for demonstration purposes."
     url := "https://example.com/product1"
     source := "Demo Store"
     price := "₹299"
     score := mkRat 17 2 },
   { title := "Demo " ++ titleCase query ++ " Product 2"
     description := "Another demo product for " ++ query ++
       ". Perfect for testing the application."
     url := "https://example.com/product2"
     source := "Demo Mart"
     price := "₹199"
     score := mkRat 39 5 },
   { title := "Demo " ++ titleCase query ++ " Product 3"
     description := "Third demo product for " ++ query ++ ". Shows how the app works."
     url := "https://example.com/product3"
     source := "Demo Shop"
     price := "₹399"
     score := mkRat 41 5 }]

/-- HindiShoppingSearch._get_demo_products: the fixed list cut to the first limit items. -/
def getDemoProducts (query : String) (limit : Nat) : List FormattedResult :=
  (demoProductsList query).take limit

/-- Outcome of the single outbound Serper HTTP POST performed by _serper_search:
either a transport-level exception, or a response with a status code and the parsed
organic list (empty when the organic key is missing). -/
inductive SerperOutcome where
  | transportError
  | response (status : Nat) (organic : List RDict)
deriving DecidableEq

/-- The query search_products works with after the Hindi-detection step: translated
when detect_hindi_query fires, otherwise the original. -/
def queryAfterTranslation (query : String) : String :=
  if detectHindiQuery query then translateHindiToEnglish query else query

/-- HindiShoppingSearch.search_products, with the single outbound call modelled by its
outcome.  Paired with the number of Serper calls performed (the only call site is
_serper_search on the has-key path; the exception handler falls back to demo data
without calling again, so there is never a retry).  The enhanced query is what the
request would carry; it does not influence the modelled outcome. -/
def searchProductsRun (hasApiKey : Bool) (query : String) (limit : Nat)
    (outcome : SerperOutcome) : List FormattedResult × Nat :=
  let q := queryAfterTranslation query
  if !hasApiKey then (getDemoProducts q limit, 0)
  else
    match outcome with
    | .transportError => (getDemoProducts q limit, 1)
    | .response st organic =>
      if st = 200 then (formatResults organic q, 1) else (getDemoProducts q limit, 1)

def searchProducts (hasApiKey : Bool) (query : String) (limit : Nat)
    (outcome : SerperOutcome) : List FormattedResult :=
  (searchProductsRun hasApiKey query limit outcome).1

/-- Decimal digits to their numeric value. -/
def natOfDigits (ds : List Char) : Nat := ds.foldl (fun n c => 10 * n + (c.toNat - 48)) 0

/-- First capture of re.findall(r'₹(\d+)', s): the digit run after the first ₹ that is
directly followed by at least one digit. -/
def rupeeDigits : List Char → Option (List Char)
  | [] => none
  | '₹' :: rest =>
    match takeDigits rest with
    | ([], _) => rupeeDigits rest
    | (d :: ds, _) => some (d :: ds)
  | _ :: rest => rupeeDigits rest

/-- A product dict of ProductComparisonService, restricted to the fields its
best-deal selection and summary read; price, rating and delivery are optional because
the code reads them defensively with .get, and a rating of Python None is treated like
an absent one (both become 0 in the sort key). -/
structure Product where
  title : String
  price : Option String
  rating : Option ℚ
  delivery : Option String
deriving DecidableEq

/-- The price component of _find_best_deal.sort_key: first ₹<digits> capture of the
price string (default string ₹999 when the key is absent), else the 999 default. -/
def sortKeyPrice (p : Product) : ℚ :=
  let priceStr := p.price.getD ("₹999")
  match rupeeDigits priceStr.data with
  | some ds => (natOfDigits ds : ℚ)
  | none => 999

/-- The rating component: rating with None treated as 0. -/
def sortKeyRating (p : Product) : ℚ := p.rating.getD 0

/-- _find_best_deal.sort_key: (price_num, -rating), compared lexicographically. -/
def sortKey (p : Product) : ℚ × ℚ := (sortKeyPrice p, -(sortKeyRating p))

/-- Lexicographic order on Python (float, float) sort keys. -/
def keyLE (a b : ℚ × ℚ) : Bool := decide (a.1 < b.1) || (decide (a.1 = b.1) && decide (a.2 ≤ b.2))

/-- Stable ascending insertion by sort key (Python sorted: equal keys keep their
original order, so an earlier element is inserted before a later equal one). -/
def insertProduct (a : Product) : List Product → List Product
  | [] => [a]
  | b :: rest =>
    if keyLE (sortKey a) (sortKey b) then a :: b :: rest else b :: insertProduct a rest

def sortProducts : List Product → List Product
  | [] => []
  | a :: rest => insertProduct a (sortProducts rest)

/-- ProductComparisonService._find_best_deal: None on an empty list, else the head of
the stable sort by (price, -rating).  The sort key is a pair of floats, so the except
branch of the source (a fallback for a failed sort) is unreachable. -/
def findBestDeal (products : List Product) : Option Product :=
  if products.isEmpty then none
  else (sortProducts products).head?

/-- One entry of the providers dict of ProductComparisonService.__init__. -/
structure ProviderInfo where
  key : String
  name : String
  domain : String
  searchUrl : String
  color : String
deriving DecidableEq

def providers : List ProviderInfo :=
  [⟨"amazon", "Amazon India", "amazon.in", "https://www.amazon.in/s?k={query}", "#FF9900"⟩,
   ⟨"flipkart", "Flipkart", "flipkart.com", "https://www.flipkart.com/search?q={query}", "#2874F0"⟩,
   ⟨"bigbasket", "BigBasket", "bigbasket.com", "https://www.bigbasket.com/pd/{query}", "#4CAF50"⟩,
   ⟨"zepto", "Zepto", "zepto.in", "https://www.zepto.in/search?q={query}", "#FF6B35"⟩,
   ⟨"blinkit", "Blinkit", "blinkit.com", "https://blinkit.com/search?q={query}", "#FF6B6B"⟩,
   ⟨"grofers", "Grofers", "grofers.com", "https://grofers.com/search?q={query}", "#4CAF50"⟩]

/-- One value of the comparison_results dict built by compare_product_across_providers
(the has-serper path): products, best deal and availability on a successful provider
search, and the empty/error record when the per-provider handler catches an exception. -/
structure ProviderEntry where
  providerInfo : ProviderInfo
  products : List Product
  bestDeal : Option Product
  availability : Bool
  error : Option String
deriving DecidableEq

def mkProviderEntry (info : ProviderInfo) : Except String (List Product) → ProviderEntry
  | .ok rs => ⟨info, rs, findBestDeal rs, !rs.isEmpty, none⟩
  | .error e => ⟨info, [], none, false, some e⟩

/-- Group 1 of r'(\d+)\s*(?:minutes?|mins?)' at the head: a digit run, spaces, then the
letters min (both alternatives of the alternation begin with min and the tails are
optional or retried, so the match succeeds exactly when min follows). -/
def tryMinutes (s : List Char) : Option Nat :=
  match takeDigits s with
  | ([], _) => none
  | (d :: ds, rest) =>
    if startsWithL ("min".data) (rest.dropWhile isSpaceChar) then some (natOfDigits (d :: ds))
    else none

/-- The summary dict of _generate_summary. -/
structure Summary where
  totalProviders : Nat
  availableProviders : Nat
  bestPrice : Option String
  bestProvider : Option String
  fastestDelivery : Option String
  fastestProvider : Option String
deriving DecidableEq

/-- Python str(float) for the whole-valued floats produced by the price parse. -/
def floatRepr (q : ℚ) : String := toString q.num ++ ".0"

/-- The best-price loop of _generate_summary: over the available entries, the least
parsed best-deal price (999 when unparsable) together with its provider, skipping
entries without a best deal or with a falsy price string; ties keep the first. -/
def bestPriceFold (avail : List ProviderEntry) : Option (ℚ × ProviderInfo) :=
  avail.foldl (fun acc e =>
    match e.bestDeal with
    | none => acc
    | some d =>
      match d.price with
      | none => acc
      | some ps =>
        if ps = "" then acc
        else
          let pn : ℚ := match rupeeDigits ps.data with
            | some ds => (natOfDigits ds : ℚ)
            | none => 999
          match acc with
          | none => some (pn, e.providerInfo)
          | some (bp, _) => if pn < bp then some (pn, e.providerInfo) else acc) none

/-- The fastest-delivery loop of _generate_summary: the least minute count extracted
from a best-deal delivery string, skipping falsy delivery values and strings without a
minutes pattern. -/
def fastestFold (avail : List ProviderEntry) : Option (Nat × ProviderInfo) :=
  avail.foldl (fun acc e =>
    match e.bestDeal with
    | none => acc
    | some d =>
      match d.delivery with
      | none => acc
      | some dv =>
        if dv = "" then acc
        else
          match searchPat tryMinutes (lowerL dv.data) with
          | none => acc
          | some m =>
            match acc with
            | none => some (m, e.providerInfo)
            | some (bm, _) => if m < bm then some (m, e.providerInfo) else acc) none

/-- ProductComparisonService._generate_summary.  The source renders the final fields
through Python truthiness: a best price of 0.0 and a fastest delivery of 0 minutes
collapse to None, and the provider names are kept whenever the tracked provider key is
nonempty, which every key in the providers table is. -/
def generateSummary (entries : List ProviderEntry) : Summary :=
  let avail := entries.filter (fun e => e.availability)
  if avail.isEmpty then
    { totalProviders := entries.length
      availableProviders := 0
      bestPrice := none
      bestProvider := none
      fastestDelivery := none
      fastestProvider := none }
  else
    { totalProviders := entries.length
      availableProviders := avail.length
      bestPrice :=
        match bestPriceFold avail with
        | none => none
        | some (bp, _) => if bp = 0 then none else some ("₹" ++ floatRepr bp)
      bestProvider := (bestPriceFold avail).map (fun x => x.2.name)
      fastestDelivery :=
        match fastestFold avail with
        | none => none
        | some (m, _) => if m = 0 then none else some (toString m ++ " minutes")
      fastestProvider := (fastestFold avail).map (fun x => x.2.name) }

/-- The comparison report of compare_product_across_providers: the per-provider
entries and the summary (the free-text analysis field is an LLM or template string
that none of the verified properties read, so it is not carried). -/
structure ComparisonReport where
  productName : String
  providerEntries : List ProviderEntry
  summary : Summary
deriving DecidableEq

/-- ProductComparisonService.compare_product_across_providers on the has-serper path
(no demo fallback configured).  The per-provider call is modelled by its outcome:
ok rs for a _search_provider_specific return value (that function catches its own
exceptions and non-200 responses and returns an empty list for them), error e for the
outer per-provider exception handler.  Every branch produces an entry, so the function
returns a report normally. -/
def compareProductAcrossProviders (productName : String)
    (call : ProviderInfo → Except String (List Product)) : ComparisonReport :=
  let entries := providers.map (fun info => mkProviderEntry info (call info))
  ⟨productName, entries, generateSummary entries⟩

/-- Greedy parse of the float numeral \d+\.?\d* at the head: its exact decimal value
and the rest. -/
def ratNum (s : List Char) : Option (ℚ × List Char) :=
  match takeDigits s with
  | ([], _) => none
  | (d :: ds, rest) =>
    match rest with
    | '.' :: rest2 =>
      let (fs, rest3) := takeDigits rest2
      some (mkRat (natOfDigits (d :: ds) * 10 ^ fs.length + natOfDigits fs) (10 ^ fs.length), rest3)
    | _ => some ((natOfDigits (d :: ds) : ℚ), rest)

/-- r'(\d+\.?\d*)\s*(?:star|rating|out of 5)' at the head (the text is already
lower-cased by the caller). -/
def tryRatingPC (s : List Char) : Option ℚ :=
  match ratNum s with
  | none => none
  | some (v, rest) =>
    let r := rest.dropWhile isSpaceChar
    if startsWithL ("star".data) r || startsWithL ("rating".data) r ||
        startsWithL ("out of 5".data) r then some v
    else none

/-- ProductComparisonService._extract_rating_from_text: the first match of the single
pattern over the lower-cased text, with no range validation. -/
def extractRatingFromTextPC (text : String) : Option ℚ :=
  searchPat tryRatingPC (lowerL text.data)

/-- Case-insensitive literal at the head, returning the rest. -/
def ciLit (lit : String) (s : List Char) : Option (List Char) :=
  if startsWithCI lit.data s then some (s.drop lit.data.length) else none

/-- r'(\d+\.?\d*)\s*out\s*of\s*5' (IGNORECASE) at the head. -/
def tryRatingLA1 (s : List Char) : Option ℚ :=
  match ratNum s with
  | none => none
  | some (v, rest) =>
    match ciLit ("out") (rest.dropWhile isSpaceChar) with
    | none => none
    | some r2 =>
      match ciLit ("of") (r2.dropWhile isSpaceChar) with
      | none => none
      | some r4 =>
        match r4.dropWhile isSpaceChar with
        | '5' :: _ => some v
        | _ => none

/-- r'(\d+\.?\d*)\s*/\s*5' at the head. -/
def tryRatingLA2 (s : List Char) : Option ℚ :=
  match ratNum s with
  | none => none
  | some (v, rest) =>
    match rest.dropWhile isSpaceChar with
    | '/' :: r2 =>
      match r2.dropWhile isSpaceChar with
      | '5' :: _ => some v
      | _ => none
    | _ => none

/-- r'(\d+\.?\d*)\s*stars?' (IGNORECASE) at the head. -/
def tryRatingLA3 (s : List Char) : Option ℚ :=
  match ratNum s with
  | none => none
  | some (v, rest) =>
    if startsWithCI ("star".data) (rest.dropWhile isSpaceChar) then some v else none

/-- r'(\d+\.?\d*)' at the head. -/
def tryRatingLA4 (s : List Char) : Option ℚ := (ratNum s).map Prod.fst

/-- One iteration of the pattern loop of link_analysis_models.extract_rating_from_text:
search the pattern, accept the first match only when its value lies in [0, 5], else
fall through to the next pattern.  float never raises on the matched numerals, so the
ValueError branch is dead. -/
def rangeStep (pat : List Char → Option ℚ) (s : List Char) : Option ℚ :=
  match searchPat pat s with
  | some v => if 0 ≤ v ∧ v ≤ 5 then some v else none
  | none => none

/-- link_analysis_models.extract_rating_from_text: None on falsy text, else the
ordered patterns with range validation. -/
def extractRatingFromTextLA (text : String) : Option ℚ :=
  if text = "" then none
  else
    match rangeStep tryRatingLA1 text.data with
    | some v => some v
    | none =>
      match rangeStep tryRatingLA2 text.data with
      | some v => some v
      | none =>
        match rangeStep tryRatingLA3 text.data with
        | some v => some v
        | none => rangeStep tryRatingLA4 text.data

/-- The outcome of one provider call fails or carries no results. -/
def failedOrEmpty : Except String (List Product) → Bool
  | .error _ => true
  | .ok l => l.isEmpty

/-- The Serper call did not produce a 200 response. -/
def isFailureOutcome : SerperOutcome → Bool
  | .transportError => true
  | .response st _ => st != 200

/-!  Helper lemmas about the string machinery and the insertion sorts. -/

theorem startsWithL_of_append (t b : List Char) : startsWithL t (t ++ b) = true := by
  induction t with
  | nil => simp [startsWithL]
  | cons c t ih => simp [startsWithL, ih]

theorem containsL_of_startsWithL {t s : List Char} (h : startsWithL t s = true) :
    containsL s t = true := by
  cases s with
  | nil =>
    cases t with
    | nil => simp [containsL]
    | cons c t => simp [startsWithL] at h
  | cons c rest => simp [containsL, h]

theorem containsL_append_right {b n : List Char} (a : List Char)
    (h : containsL b n = true) : containsL (a ++ b) n = true := by
  induction a with
  | nil => simpa using h
  | cons c a ih => simp [containsL, ih]

theorem containsL_append_middle (a t b : List Char) : containsL (a ++ t ++ b) t = true := by
  have h1 : containsL (t ++ b) t = true :=
    containsL_of_startsWithL (startsWithL_of_append t b)
  have h2 := containsL_append_right a h1
  simpa [List.append_assoc] using h2

theorem data_append (s t : String) : (s ++ t).data = s.data ++ t.data := rfl

theorem containsS_append_middle (a t b : String) : containsS (a ++ t ++ b) t = true := by
  have := containsL_append_middle a.data t.data b.data
  simpa [containsS, data_append] using this

theorem containsWordAux_containsL {key : List Char} :
    ∀ {prev : Option Char} {s : List Char},
      containsWordAux key prev s = true → containsL s key = true := by
  intro prev s
  induction s generalizing prev with
  | nil => simp [containsWordAux]
  | cons c rest ih =>
    intro h
    simp only [containsWordAux, Bool.or_eq_true] at h
    rcases h with h | h
    · simp only [matchesWordHere, Bool.and_eq_true] at h
      simp [containsL, h.1.1.2]
    · simp [containsL, ih h]

theorem lowerL_append (u v : List Char) : lowerL (u ++ v) = lowerL u ++ lowerL v :=
  List.map_append lowerChar u v

theorem enhanceSearchQuery_eq (q : String) :
    enhanceSearchQuery q =
      if (shoppingKeywords.any fun k => containsS (lower q) k) then q
      else q ++ " buy online price" := rfl

/-- Appending the shopping suffix makes the shopping-context test true, so
enhance_search_query is idempotent. -/
theorem enhance_idem (s : String) :
    enhanceSearchQuery (enhanceSearchQuery s) = enhanceSearchQuery s := by
  by_cases h : (shoppingKeywords.any fun k => containsS (lower s) k) = true
  · rw [enhanceSearchQuery_eq s, if_pos h, enhanceSearchQuery_eq s, if_pos h]
  · rw [enhanceSearchQuery_eq s, if_neg h, enhanceSearchQuery_eq]
    have hb : containsS (lower (s ++ " buy online price")) ("buy") = true := by
      have h1 : containsL (lowerL ((" buy online price").data)) (("buy").data) = true := by
        decide
      have h2 := containsL_append_right (lowerL s.data) h1
      simpa [containsS, lower, data_append, lowerL_append] using h2
    have hany : (shoppingKeywords.any fun k => containsS (lower (s ++ " buy online price")) k)
        = true :=
      List.any_eq_true.mpr ⟨"buy", by decide, hb⟩
    rw [if_pos hany]

theorem keyLE_refl (a : ℚ × ℚ) : keyLE a a = true := by simp [keyLE]

theorem keyLE_total (a b : ℚ × ℚ) : keyLE a b = true ∨ keyLE b a = true := by
  rcases lt_trichotomy a.1 b.1 with h | h | h
  · exact Or.inl (by simp [keyLE, h])
  · rcases le_total a.2 b.2 with h2 | h2
    · exact Or.inl (by simp [keyLE, h, h2])
    · exact Or.inr (by simp [keyLE, h.symm, h2])
  · exact Or.inr (by simp [keyLE, h])

theorem keyLE_trans {a b c : ℚ × ℚ} (h1 : keyLE a b = true) (h2 : keyLE b c = true) :
    keyLE a c = true := by
  simp only [keyLE, Bool.or_eq_true, Bool.and_eq_true, decide_eq_true_eq] at h1 h2 ⊢
  rcases h1 with h1 | ⟨h1e, h1r⟩
  · rcases h2 with h2 | ⟨h2e, h2r⟩
    · exact Or.inl (h1.trans h2)
    · exact Or.inl (h2e ▸ h1)
  · rcases h2 with h2 | ⟨h2e, h2r⟩
    · exact Or.inl (h1e ▸ h2)
    · exact Or.inr ⟨h1e.trans h2e, h1r.trans h2r⟩

theorem mem_insertProduct {q a : Product} :
    ∀ {l : List Product}, q ∈ insertProduct a l ↔ q = a ∨ q ∈ l := by
  intro l
  induction l with
  | nil => simp [insertProduct]
  | cons b rest ih =>
    by_cases h : keyLE (sortKey a) (sortKey b) = true
    · simp [insertProduct, h, List.mem_cons]
    · simp only [insertProduct, if_neg h, List.mem_cons, ih]
      tauto

theorem mem_sortProducts {q : Product} :
    ∀ {l : List Product}, q ∈ sortProducts l ↔ q ∈ l := by
  intro l
  induction l with
  | nil => simp [sortProducts]
  | cons a rest ih => simp [sortProducts, mem_insertProduct, ih, List.mem_cons]

theorem sortProducts_head_min :
    ∀ (l : List Product) (p : Product), (sortProducts l).head? = some p →
      p ∈ l ∧ ∀ q ∈ l, keyLE (sortKey p) (sortKey q) = true := by
  intro l
  induction l with
  | nil => intro p h; simp [sortProducts] at h
  | cons a l ih =>
    intro p h
    simp only [sortProducts] at h
    cases hs : sortProducts l with
    | nil =>
      rw [hs] at h
      simp [insertProduct] at h
      subst h
      refine ⟨List.mem_cons_self a l, ?_⟩
      intro q hq
      rcases List.mem_cons.mp hq with rfl | hq2
      · exact keyLE_refl _
      · exfalso
        have hmem : q ∈ sortProducts l := mem_sortProducts.mpr hq2
        rw [hs] at hmem
        simp at hmem
    | cons b s2 =>
      rw [hs] at h
      have hb := ih b (by rw [hs]; rfl)
      simp only [insertProduct] at h
      by_cases hab : keyLE (sortKey a) (sortKey b) = true
      · rw [if_pos hab] at h
        simp only [List.head?_cons, Option.some.injEq] at h
        rw [← h]
        refine ⟨List.mem_cons_self _ _, ?_⟩
        intro q hq
        rcases List.mem_cons.mp hq with h1 | hq2
        · rw [h1]; exact keyLE_refl _
        · exact keyLE_trans hab (hb.2 q hq2)
      · rw [if_neg hab] at h
        simp only [List.head?_cons, Option.some.injEq] at h
        rw [← h]
        refine ⟨List.mem_cons_of_mem _ hb.1, ?_⟩
        intro q hq
        rcases List.mem_cons.mp hq with h1 | hq2
        · rw [h1]
          exact (keyLE_total (sortKey a) (sortKey b)).resolve_left hab
        · exact hb.2 q hq2

theorem length_insertByScore (a : FormattedResult) :
    ∀ l : List FormattedResult, (insertByScore a l).length = l.length + 1 := by
  intro l
  induction l with
  | nil => simp [insertByScore]
  | cons b rest ih =>
    by_cases h : b.score ≤ a.score
    · simp [insertByScore, h]
    · simp [insertByScore, h, ih]

theorem length_sortByScoreDesc :
    ∀ l : List FormattedResult, (sortByScoreDesc l).length = l.length := by
  intro l
  induction l with
  | nil => rfl
  | cons a rest ih => simp [sortByScoreDesc, length_insertByScore, ih]

theorem rangeStep_some {pat : List Char → Option ℚ} {s : List Char} {v : ℚ}
    (h : rangeStep pat s = some v) : 0 ≤ v ∧ v ≤ 5 := by
  unfold rangeStep at h
  cases hm : searchPat pat s with
  | none => rw [hm] at h; exact absurd h (by simp)
  | some w =>
    rw [hm] at h
    dsimp only [] at h
    by_cases hr : 0 ≤ w ∧ w ≤ 5
    · rw [if_pos hr] at h
      cases h
      exact hr
    · rw [if_neg hr] at h
      exact absurd h (by simp)

theorem availability_false_filter {entries : List ProviderEntry}
    (h : ∀ e ∈ entries, e.availability = false) :
    entries.filter (fun e => e.availability) = [] := by
  induction entries with
  | nil => rfl
  | cons e rest ih =>
    have he := h e (List.mem_cons_self _ _)
    simp only [List.filter_cons, he, Bool.false_eq_true, if_false, cond_false]
    exact ih (fun x hx => h x (List.mem_cons_of_mem _ hx))

theorem detectHindiQuery_eq (q : String) :
    detectHindiQuery q =
      (hindiIndicators.any (fun ind => containsS (lower q) ind) ||
       hindiEnglishMappings.any (fun kv => containsS (lower q) kv.1)) := rfl

/-!  The claims. -/

/-- Claim C1: for every input string the price extractor is a total function into
strings; on a text containing "Price: ₹1,299 only" it returns "₹1,299", the capture of
the first matching pattern of the ordered list (₹, Rs, INR, $, number-rupees) prefixed
with ₹; and whenever no pattern of that list matches anywhere in the input it returns
exactly the sentinel "Price not available". -/
theorem c1_price_extraction :
    extractPrice ("Price: ₹1,299 only") = "₹1,299" ∧
    ∀ s : String, priceGroup s.data = none → extractPrice s = "Price not available" := by
  refine ⟨by decide, ?_⟩
  intro s h
  unfold extractPrice
  rw [h]

theorem c1_price_extraction_witness :
    extractPrice ("no currency mentioned here") = "Price not available" :=
  c1_price_extraction.2 ("no currency mentioned here") (by decide)

/-- Claim C2 counterexample: the claim asserts the Hindi-detection predicate is false on
the pure-English query "buy laptop online", but detect_hindi_query matches indicators
and lexicon keys as substrings (the indicator in occurs inside online, and laptop is a
lexicon key), so the code returns true there. -/
theorem c2_hindi_detection_counterexample :
    detectHindiQuery ("buy laptop online") = true := by decide

/-- Claim C2, amended: the detection predicate returns true for every query containing
a lexicon key or indicator token as a whole word (a whole-word occurrence is in
particular a substring occurrence), and in particular on "laptop kya price hai"; but
the matching is substring-based, so it also returns true on pure-English queries such
as "buy laptop online". -/
theorem c2_hindi_detection :
    (∀ (q k : String),
        (k ∈ hindiIndicators ∨ k ∈ hindiEnglishMappings.map Prod.fst) →
        containsWord (lower q) k = true → detectHindiQuery q = true) ∧
    detectHindiQuery ("buy laptop online") = true ∧
    detectHindiQuery ("laptop kya price hai") = true := by
  refine ⟨?_, by decide, by decide⟩
  intro q k hk hw
  have hsub : containsS (lower q) k = true := containsWordAux_containsL hw
  rw [detectHindiQuery_eq]
  rcases hk with hk | hk
  · have := List.any_eq_true.mpr ⟨k, hk, hsub⟩
    simp [this]
  · rcases List.mem_map.mp hk with ⟨kv, hkv, hkeq⟩
    have : hindiEnglishMappings.any (fun kv => containsS (lower q) kv.1) = true :=
      List.any_eq_true.mpr ⟨kv, hkv, by rw [hkeq]; exact hsub⟩
    simp [this]

theorem c2_hindi_detection_witness :
    detectHindiQuery ("laptop kya price hai") = true :=
  c2_hindi_detection.1 ("laptop kya price hai") ("kya") (Or.inl (by decide)) (by decide)

/-- Claim C3 counterexample: the claim asserts that for every lexicon key K the
normalized query no longer contains K as a standalone word, but laptop is a lexicon key
mapped to itself, and normalizing a query containing it leaves the standalone word in
place. -/
theorem c3_normalize_counterexample :
    ("laptop", "laptop") ∈ hindiEnglishMappings ∧
    containsWord (normalizeQuery ("qq laptop qq")) ("laptop") = true := by decide

/-- Claim C3, amended: for every lexicon key K with mapped value V, normalizing a query
of the form "... K ..." yields an output containing V; the key K no longer occurs as a
standalone word whenever V itself does not contain K as a standalone word (identity-like
mappings such as laptop to laptop, mobile to mobile phone or charger to mobile charger
keep the key). -/
theorem c3_normalize :
    ∀ kv ∈ hindiEnglishMappings,
      containsS (normalizeQuery ("qq " ++ kv.1 ++ " qq")) kv.2 = true ∧
      (containsWord kv.2 kv.1 = false →
        containsWord (normalizeQuery ("qq " ++ kv.1 ++ " qq")) kv.1 = false) := by decide

theorem c3_normalize_witness :
    containsS (normalizeQuery ("qq tamatar qq")) ("tomato") = true ∧
    containsWord (normalizeQuery ("qq tamatar qq")) ("tamatar") = false :=
  ⟨(c3_normalize ("tamatar", "tomato") (by decide)).1,
   (c3_normalize ("tamatar", "tomato") (by decide)).2 (by decide)⟩

/-- Claim C4 counterexample: the claim asserts every rating extraction validates the
matched value into [0, 5] and yields the absent value on "rated 8 out of 5"; the
product-comparison extraction has no range validation and returns 8 there. -/
theorem c4_rating_counterexample :
    extractRatingFromTextPC ("rated 8 out of 5") = some 8 := by decide

/-- Claim C4, amended: the link-analysis rating extraction validates every returned
value into [0, 5] and yields the absent value on "rated 8 out of 5", but the
product-comparison rating extraction performs no range validation and returns 8 on the
same text. -/
theorem c4_rating_validation :
    (∀ (text : String) (v : ℚ), extractRatingFromTextLA text = some v → 0 ≤ v ∧ v ≤ 5) ∧
    extractRatingFromTextLA ("rated 8 out of 5") = none ∧
    extractRatingFromTextPC ("rated 8 out of 5") = some 8 := by
  refine ⟨?_, by decide, by decide⟩
  intro text v h
  unfold extractRatingFromTextLA at h
  by_cases ht : text = ""
  · rw [if_pos ht] at h
    exact absurd h (by simp)
  · rw [if_neg ht] at h
    cases h1 : rangeStep tryRatingLA1 text.data with
    | some w => rw [h1] at h; dsimp only [] at h; cases h; exact rangeStep_some h1
    | none =>
      rw [h1] at h; dsimp only [] at h
      cases h2 : rangeStep tryRatingLA2 text.data with
      | some w => rw [h2] at h; dsimp only [] at h; cases h; exact rangeStep_some h2
      | none =>
        rw [h2] at h; dsimp only [] at h
        cases h3 : rangeStep tryRatingLA3 text.data with
        | some w => rw [h3] at h; dsimp only [] at h; cases h; exact rangeStep_some h3
        | none =>
          rw [h3] at h; dsimp only [] at h
          exact rangeStep_some h

theorem c4_rating_validation_witness :
    0 ≤ (mkRat 9 2) ∧ (mkRat 9 2) ≤ 5 :=
  c4_rating_validation.1 ("4.5 stars") (mkRat 9 2) (by decide)

/-- Claim C5 counterexample: the claim asserts a product with an unparsable price is
never selected ahead of a product with a parsed numeric price, but the sentinel is 999,
so an unparsable price wins against a parsed price of ₹1500. -/
theorem c5_best_deal_counterexample :
    findBestDeal [Product.mk ("Parsed") (some ("₹1500")) none none,
        Product.mk ("Unparsable") (some ("no price listed")) none none] =
      some (Product.mk ("Unparsable") (some ("no price listed")) none none) ∧
    rupeeDigits (("no price listed").data) = none ∧
    rupeeDigits (("₹1500").data) = some (("1500").data) := by decide

/-- Claim C5, amended: for a nonempty product list the best-deal selection returns a
member of the list whose sort key (parsed price with the 999 default for an unparsable
or absent price, then negated rating with an absent or None rating treated as 0) is
lexicographically least — so the 999 sentinel sorts after parsed prices up to ₹999 but
ahead of parsed prices above ₹999 — and the empty list yields None. -/
theorem c5_best_deal :
    findBestDeal [] = none ∧
    ∀ (ps : List Product) (p : Product), findBestDeal ps = some p →
      p ∈ ps ∧ ∀ q ∈ ps, keyLE (sortKey p) (sortKey q) = true := by
  refine ⟨by decide, ?_⟩
  intro ps p h
  unfold findBestDeal at h
  by_cases he : ps.isEmpty
  · rw [if_pos he] at h
    exact absurd h (by simp)
  · rw [if_neg he] at h
    exact sortProducts_head_min ps p h

theorem c5_best_deal_witness :
    (Product.mk ("Unparsable") (some ("no price listed")) none none) ∈
      [Product.mk ("Parsed") (some ("₹1500")) none none,
       Product.mk ("Unparsable") (some ("no price listed")) none none] ∧
    keyLE (sortKey (Product.mk ("Unparsable") (some ("no price listed")) none none))
      (sortKey (Product.mk ("Parsed") (some ("₹1500")) none none)) = true :=
  have h := c5_best_deal.2
    [Product.mk ("Parsed") (some ("₹1500")) none none,
     Product.mk ("Unparsable") (some ("no price listed")) none none]
    (Product.mk ("Unparsable") (some ("no price listed")) none none) (by decide)
  ⟨h.1, h.2 (Product.mk ("Parsed") (some ("₹1500")) none none) (by decide)⟩

theorem generateSummary_no_avail {entries : List ProviderEntry}
    (h : entries.filter (fun e => e.availability) = []) :
    generateSummary entries =
      { totalProviders := entries.length, availableProviders := 0, bestPrice := none,
        bestProvider := none, fastestDelivery := none, fastestProvider := none } := by
  simp only [generateSummary, h]
  simp

/-- Claim C6: when every provider call fails or returns an empty result list on the
has-serper path (no demo fallback configured), the comparison report is still produced
(the embedding is a total function) with summary available_providers equal to 0 and
best_price equal to None. -/
theorem c6_comparison_all_failed :
    ∀ (productName : String) (call : ProviderInfo → Except String (List Product)),
      (∀ info ∈ providers, failedOrEmpty (call info) = true) →
      (compareProductAcrossProviders productName call).summary.availableProviders = 0 ∧
      (compareProductAcrossProviders productName call).summary.bestPrice = none := by
  intro pn call h
  have hav : ∀ e ∈ providers.map (fun info => mkProviderEntry info (call info)),
      e.availability = false := by
    intro e he
    rcases List.mem_map.mp he with ⟨info, hinfo, rfl⟩
    have hf := h info hinfo
    cases hc : call info with
    | error e2 => simp [mkProviderEntry, hc]
    | ok l =>
      rw [hc] at hf
      cases l with
      | nil => simp [mkProviderEntry, hc]
      | cons a as => exact absurd hf (by simp [failedOrEmpty])
  have hfil := availability_false_filter hav
  constructor
  · show (generateSummary
        (providers.map fun info => mkProviderEntry info (call info))).availableProviders = 0
    rw [generateSummary_no_avail hfil]
  · show (generateSummary
        (providers.map fun info => mkProviderEntry info (call info))).bestPrice = none
    rw [generateSummary_no_avail hfil]

theorem c6_comparison_all_failed_witness :
    (compareProductAcrossProviders ("milk")
        (fun _ => Except.error ("network down"))).summary.availableProviders = 0 ∧
    (compareProductAcrossProviders ("milk")
        (fun _ => Except.error ("network down"))).summary.bestPrice = none :=
  c6_comparison_all_failed ("milk") (fun _ => Except.error ("network down")) (by decide)

/-- Claim C7 counterexample: the claim says the +2 bonus applies when the query is a
substring of the snippet; on a hit whose snippet contains the query the spec formula
gives 2, but the code reads the absent key content and gives 0. -/
theorem c7_ranker_counterexample :
    specRelevanceScore ([("title", "x"), ("snippet", "laptop deals"), ("link", "u")])
        ("laptop") = 2 ∧
    calculateRelevanceScore ([("title", "x"), ("snippet", "laptop deals"), ("link", "u")])
        ("laptop") = 0 := by decide

/-- Claim C7, amended: for every hit and query the relevance score lies in [0, 10] and
equals base 0 plus 5 for the query in the title, plus 2 for the query in the value under
key content (not the snippet field), plus 3 for a shopping-site name in the value under
key source; the sum never exceeds 10, so the cap never truncates. -/
theorem c7_ranker_bounds :
    ∀ (result : RDict) (query : String),
      0 ≤ calculateRelevanceScore result query ∧
      calculateRelevanceScore result query ≤ 10 ∧
      calculateRelevanceScore result query =
        ((if containsS (lower (dGet result ("title") (""))) (lower query)
            then (5 : ℚ) else 0) +
         (if containsS (lower (dGet result ("content") (""))) (lower query)
            then (2 : ℚ) else 0) +
         (if shoppingSites.any (fun site => containsS (lower (dGet result ("source") (""))) site)
            then (3 : ℚ) else 0)) := by
  intro r q
  simp only [calculateRelevanceScore]
  split_ifs <;> norm_num

/-- Claim C8 counterexample: with the failing transport and limit 2 the result is the
two-item cut of the demo list, not the fixed three-item demo list the claim states. -/
theorem c8_gateway_counterexample :
    searchProducts true ("pen") 2 SerperOutcome.transportError ≠ demoProductsList ("pen") ∧
    (searchProducts true ("pen") 2 SerperOutcome.transportError).length = 2 ∧
    (demoProductsList ("pen")).length = 3 := by decide

/-- Claim C8, amended: on a transport exception or non-200 response, search_products
performs the single outbound call (no retry) and returns the first limit items of the
hard-coded three-item demo list built for the possibly-translated query, whose titles
embed its title-cased form; on a 200 response it returns the formatted organic hits,
one per organic result with no client-side truncation (the request itself asks for
num = limit). -/
theorem c8_gateway :
    (∀ (q : String) (lim : Nat) (o : SerperOutcome), isFailureOutcome o = true →
      searchProductsRun true q lim o =
        ((demoProductsList (queryAfterTranslation q)).take lim, 1)) ∧
    (∀ q : String, (demoProductsList q).length = 3 ∧
      ∀ fr ∈ demoProductsList q, containsS fr.title (titleCase q) = true) ∧
    (∀ (q : String) (lim : Nat) (organic : List RDict),
      searchProductsRun true q lim (SerperOutcome.response 200 organic) =
        (formatResults organic (queryAfterTranslation q), 1) ∧
      (formatResults organic (queryAfterTranslation q)).length = organic.length) := by
  refine ⟨?_, ?_, ?_⟩
  · intro q lim o ho
    cases o with
    | transportError => rfl
    | response st organic =>
      have hst : st ≠ 200 := by simpa [isFailureOutcome] using ho
      simp only [searchProductsRun, Bool.not_true, getDemoProducts]
      rw [if_neg hst]
      simp [getDemoProducts]
  · intro q
    refine ⟨by simp [demoProductsList], ?_⟩
    intro fr hfr
    simp only [demoProductsList, List.mem_cons, List.not_mem_nil, or_false] at hfr
    rcases hfr with rfl | rfl | rfl
    · exact containsS_append_middle ("Demo ") (titleCase q) (" Product 1")
    · exact containsS_append_middle ("Demo ") (titleCase q) (" Product 2")
    · exact containsS_append_middle ("Demo ") (titleCase q) (" Product 3")
  · intro q lim organic
    refine ⟨rfl, ?_⟩
    unfold formatResults
    rw [length_sortByScoreDesc, List.length_map]

theorem c8_gateway_witness :
    searchProductsRun true ("pen") 2 SerperOutcome.transportError =
      ((demoProductsList (queryAfterTranslation ("pen"))).take 2, 1) ∧
    (demoProductsList ("pen")).length = 3 :=
  ⟨c8_gateway.1 ("pen") 2 SerperOutcome.transportError (by decide),
   (c8_gateway.2.1 ("pen")).1⟩

/-- Claim C9 counterexample: the pure-English query "mobile cover" contains the lexicon
key mobile, so the second normalization substitutes it again and the result changes. -/
theorem c9_idempotence_counterexample :
    normalizeQuery (normalizeQuery ("mobile cover")) ≠ normalizeQuery ("mobile cover") := by
  decide

/-- Claim C9, amended: normalization is idempotent on every query that the translation
step leaves unchanged both before and after normalization (in particular on stripped
pure-English queries containing no lexicon key as a word and no phrase-table entry);
it is not idempotent on all pure-English queries, since lexicon keys are English words
(see the counterexample "mobile cover"). -/
theorem c9_idempotence :
    ∀ q : String, translateHindiToEnglish q = q →
      translateHindiToEnglish (normalizeQuery q) = normalizeQuery q →
      normalizeQuery (normalizeQuery q) = normalizeQuery q := by
  intro q h1 h2
  calc normalizeQuery (normalizeQuery q)
      = enhanceSearchQuery (translateHindiToEnglish (normalizeQuery q)) := rfl
    _ = enhanceSearchQuery (normalizeQuery q) := by rw [h2]
    _ = enhanceSearchQuery (enhanceSearchQuery (translateHindiToEnglish q)) := rfl
    _ = enhanceSearchQuery (enhanceSearchQuery q) := by rw [h1]
    _ = enhanceSearchQuery q := enhance_idem q
    _ = enhanceSearchQuery (translateHindiToEnglish q) := by rw [h1]
    _ = normalizeQuery q := rfl

theorem c9_idempotence_witness :
    normalizeQuery (normalizeQuery ("fresh bread")) = normalizeQuery ("fresh bread") :=
  c9_idempotence ("fresh bread") (by decide) (by decide)

/-- Claim C10 counterexample: on a hit with only the keys title, link and snippet the
claim says the score is exactly 0 or 5; with the empty query the code scores 7, since
the empty string is a substring of the absent content value as well as of the title. -/
theorem c10_serper_score_counterexample :
    calculateRelevanceScore ([("title", "t"), ("link", "u"), ("snippet", "s")]) ("") = 7 ∧
    calculateRelevanceScore ([("title", "t"), ("link", "u"), ("snippet", "s")]) ("") ≠ 0 ∧
    calculateRelevanceScore ([("title", "t"), ("link", "u"), ("snippet", "s")]) ("") ≠ 5 := by
  decide

/-- Claim C10, amended: for every hit shaped like a Serper organic result (keys title,
link, snippet only) and every nonempty query, the relevance score is exactly 5 or 0
according to whether the lower-cased query occurs in the lower-cased title: the +2
bonus reads the absent key content and the +3 bonus reads the absent key source, so
neither can fire; with the empty query the score is instead 7. -/
theorem c10_serper_score :
    ∀ (t l sn q : String), q ≠ "" →
      calculateRelevanceScore ([("title", t), ("link", l), ("snippet", sn)]) q =
        (if containsS (lower t) (lower q) then (5 : ℚ) else 0) := by
  intro t l sn q hq
  have hqd : q.data ≠ [] := by
    intro hd
    apply hq
    cases q with
    | mk d =>
      simp only [String.data] at hd
      subst hd
      rfl
  have hce : containsS ("") (lower q) = false := by
    show ((lower q).data).isEmpty = false
    show (q.data.map lowerChar).isEmpty = false
    cases hd : q.data with
    | nil => exact absurd hd hqd
    | cons c r => simp
  have hdt : dGet [("title", t), ("link", l), ("snippet", sn)] ("title") ("") = t := by
    simp [dGet]
  have hdc : dGet [("title", t), ("link", l), ("snippet", sn)] ("content") ("") = "" := by
    simp [dGet]
  have hds : dGet [("title", t), ("link", l), ("snippet", sn)] ("source") ("") = "" := by
    simp [dGet]
  have hsites : (shoppingSites.any fun site => containsS (lower ("")) site) = false := by
    decide
  simp only [calculateRelevanceScore, hdt, hdc, hds]
  rw [show lower ("") = "" from rfl] at *
  rw [hce, hsites]
  by_cases hT : containsS (lower t) (lower q) = true
  · simp [hT]
    all_goals norm_num
  · simp only [Bool.not_eq_true] at hT
    simp [hT]

theorem c10_serper_score_witness :
    calculateRelevanceScore ([("title", "great laptop deal"), ("link", "u"),
        ("snippet", "s")]) ("laptop") = 5 := by
  have h := c10_serper_score ("great laptop deal") ("u") ("s") ("laptop") (by decide)
  rw [h]
  decide

end Shop
